import Mathlib

/-!
Shallow embedding of `src/karta/vector/vectorgeo.pyx` (low-level vector
geometry for the karta library) and verification of its specification.

C doubles are modelled as real numbers; the struct types `Vector2` and
`Vector3`, the scalar helpers `mind`/`maxd`/`absd`, the vector primitives
`dot2`/`proj2`/`dist2`, the spherical conversions `sph2cart`/`cart2sph`,
the planar nearest-point routine `pt_nearest_planar`, the path-length
routine `length`, and the geodesic nearest-point search `pt_nearest_proj`
(with its `_along_distance` functional, numerical gradient and bisection
loop) are translated definition by definition from the source.
-/

noncomputable section

open Real

namespace Vectorgeo

/-- `cdef struct Vector2`: a pair of doubles. -/
structure Vector2 where
  x : ℝ
  y : ℝ

/-- `cdef struct Vector3`: a triple of doubles. -/
structure Vector3 where
  x : ℝ
  y : ℝ
  z : ℝ

/-- `dot2(u, v)`. -/
def dot2 (u v : Vector2) : ℝ := u.x * v.x + u.y * v.y

/-- `proj2(u, v)`: projection of `u` onto `v` (undefined for `v = 0`,
where the real division yields the Lean junk value `0/0 = 0`). -/
def proj2 (u v : Vector2) : Vector2 :=
  let uv_vv : ℝ := dot2 u v / dot2 v v
  ⟨uv_vv * v.x, uv_vv * v.y⟩

/-- `dist2(pt0, pt1)`: Euclidean distance. -/
def dist2 (pt0 pt1 : Vector2) : ℝ :=
  Real.sqrt ((pt0.x - pt1.x) ^ 2 + (pt0.y - pt1.y) ^ 2)

/-- `mind(a, b)`. -/
def mind (a b : ℝ) : ℝ := if a ≤ b then a else b

/-- `maxd(a, b)`. -/
def maxd (a b : ℝ) : ℝ := if a ≥ b then a else b

/-- `absd(a)`. -/
def absd (a : ℝ) : ℝ := if a < 0 then -a else a

/-- `pt_nearest_planar(x, y, endpt0_0, endpt0_1, endpt1_0, endpt1_1)`:
the point on the segment from `(endpt0_0, endpt0_1)` to
`(endpt1_0, endpt1_1)` nearest to `(x, y)`, as a (point, distance) pair. -/
def pt_nearest_planar (x y endpt0_0 endpt0_1 endpt1_0 endpt1_1 : ℝ) :
    Vector2 × ℝ :=
  let pt : Vector2 := ⟨x, y⟩
  let pt0 : Vector2 := ⟨endpt0_0, endpt0_1⟩
  let pt1 : Vector2 := ⟨endpt1_0, endpt1_1⟩
  let u : Vector2 := ⟨x - pt0.x, y - pt0.y⟩
  let v : Vector2 := ⟨pt1.x - pt0.x, pt1.y - pt0.y⟩
  let u_on_v := proj2 u v
  let u_int : Vector2 := ⟨u_on_v.x + pt0.x, u_on_v.y + pt0.y⟩
  if absd (pt0.x - pt1.x) < 1e-4 then
    -- Segment is near vertical
    if u_int.y > maxd pt0.y pt1.y then
      if pt0.y > pt1.y then (pt0, dist2 pt0 pt) else (pt1, dist2 pt1 pt)
    else if u_int.y < mind pt0.y pt1.y then
      if pt0.y < pt1.y then (pt0, dist2 pt0 pt) else (pt1, dist2 pt1 pt)
    else
      (u_int, dist2 u_int pt)
  else
    if u_int.x > maxd pt0.x pt1.x then
      if pt0.x > pt1.x then (pt0, dist2 pt0 pt) else (pt1, dist2 pt1 pt)
    else if u_int.x < mind pt0.x pt1.x then
      if pt0.x < pt1.x then (pt0, dist2 pt0 pt) else (pt1, dist2 pt1 pt)
    else
      (u_int, dist2 u_int pt)

/-- The point `q` lies on the closed segment from `p0` to `p1`. -/
def onSegment (p0 p1 q : Vector2) : Prop :=
  ∃ t : ℝ, 0 ≤ t ∧ t ≤ 1 ∧
    q.x = p0.x + t * (p1.x - p0.x) ∧ q.y = p0.y + t * (p1.y - p0.y)

/-- `atan2(y, x)` of `libc.math`, specified by the C standard: the angle of
the point `(x, y)` in `(-pi, pi]`, with `atan2(0, 0) = 0`. -/
def atan2 (y x : ℝ) : ℝ :=
  if 0 < x then arctan (y / x)
  else if x < 0 then
    (if 0 ≤ y then arctan (y / x) + π else arctan (y / x) - π)
  else if 0 < y then π / 2
  else if y < 0 then -(π / 2)
  else 0

/-- `sph2cart(a)`: convert a `(lambda, phi)` coordinate in degrees on the
unit sphere to `(x, y, z)`. -/
def sph2cart (a : Vector2) : Vector3 :=
  let theta : ℝ := 90.0 - a.y
  ⟨Real.sin (π * theta / 180.0) * Real.cos (π * a.x / 180.0),
   Real.sin (π * theta / 180.0) * Real.sin (π * a.x / 180.0),
   Real.cos (π * theta / 180.0)⟩

/-- `cart2sph(a)`: convert an `(x, y, z)` coordinate to a `(lambda, phi)`
coordinate in degrees. -/
def cart2sph (a : Vector3) : Vector2 :=
  let lon : ℝ :=
    if absd a.x > 1e-8 then atan2 a.y a.x
    else arcsin (a.y / Real.sqrt (a.x * a.x + a.y * a.y))
  let lat : ℝ :=
    if absd a.z > 1e-8 then
      0.5 * π - arctan (Real.sqrt (a.x * a.x + a.y * a.y) / a.z)
    else
      0.5 * π - arccos (a.z / Real.sqrt (a.x * a.x + a.y * a.y + a.z * a.z))
  ⟨lon * 180.0 / π, lat * 180.0 / π⟩

/-- The branch selection of `cart2sph` as worded by the claim: the `asin`
formula when `|x|` is strictly below `1e-8` (and `atan2` otherwise), the
`acos` formula when `|z|` is strictly below `1e-8` (and the `atan` formula
otherwise). -/
def cart2sphClaim (a : Vector3) : Vector2 :=
  let lon : ℝ :=
    if absd a.x < 1e-8 then arcsin (a.y / Real.sqrt (a.x * a.x + a.y * a.y))
    else atan2 a.y a.x
  let lat : ℝ :=
    if absd a.z < 1e-8 then
      0.5 * π - arccos (a.z / Real.sqrt (a.x * a.x + a.y * a.y + a.z * a.z))
    else
      0.5 * π - arctan (Real.sqrt (a.x * a.x + a.y * a.y) / a.z)
  ⟨lon * 180.0 / π, lat * 180.0 / π⟩

/-- The branch selection of `cart2sph` as amended: the `asin` formula when
`|x| ≤ 1e-8` (so `atan2` exactly when `|x| > 1e-8`), the `acos` formula
when `|z| ≤ 1e-8` (so the `atan` formula exactly when `|z| > 1e-8`). -/
def cart2sphAmended (a : Vector3) : Vector2 :=
  let lon : ℝ :=
    if absd a.x ≤ 1e-8 then arcsin (a.y / Real.sqrt (a.x * a.x + a.y * a.y))
    else atan2 a.y a.x
  let lat : ℝ :=
    if absd a.z ≤ 1e-8 then
      0.5 * π - arccos (a.z / Real.sqrt (a.x * a.x + a.y * a.y + a.z * a.z))
    else
      0.5 * π - arctan (Real.sqrt (a.x * a.x + a.y * a.y) / a.z)
  ⟨lon * 180.0 / π, lat * 180.0 / π⟩

/-- Modelled from the spec: the coordinate-sequence collaborator
(`CoordString`, imported from `coordstring` and not part of this core)
exposes indexable access to X/Y coordinates by position, reports its
length, and carries a ring flag; for a closed ring the indexed access
wraps around modulo the number of points so that the length computation
includes the closing segment back to index 0. -/
structure CoordString where
  pts : List (ℝ × ℝ)
  ring : Bool

/-- Modelled from the spec: wrapped indexed access to the X coordinate. -/
def CoordString.getX (cs : CoordString) (i : ℕ) : ℝ :=
  (cs.pts.getD (i % cs.pts.length) (0, 0)).1

/-- Modelled from the spec: wrapped indexed access to the Y coordinate. -/
def CoordString.getY (cs : CoordString) (i : ℕ) : ℝ :=
  (cs.pts.getD (i % cs.pts.length) (0, 0)).2

/-- The body of the `while i != (n-1)` loop of `length`, as a recursion on
the remaining number of segments `(n-1) - i`: each step adds the length of
the segment from point `i` to point `i+1` and advances `i`. -/
def lengthGo (cs : CoordString) : ℕ → ℕ → ℝ
  | _, 0 => 0
  | i, r + 1 =>
    Real.sqrt ((cs.getX (i + 1) - cs.getX i) * (cs.getX (i + 1) - cs.getX i) +
        (cs.getY (i + 1) - cs.getY i) * (cs.getY (i + 1) - cs.getY i)) +
      lengthGo cs (i + 1) r

/-- `length(cs)`: planar length of a CoordString; when the ring flag is
set the point count is incremented by one so that the loop also sums the
closing segment. -/
def length (cs : CoordString) : ℝ :=
  let n : ℕ := cs.pts.length + (if cs.ring then 1 else 0)
  lengthGo cs 0 (n - 1)

/-- The planar length of one segment, as summed by `length`. -/
def segLen (a b : ℝ × ℝ) : ℝ :=
  Real.sqrt ((b.1 - a.1) * (b.1 - a.1) + (b.2 - a.2) * (b.2 - a.2))

/-- `_along_distance(fwd, inv, x0, y0, xp, yp, az, f)`: walk distance `f`
along azimuth `az` from `(x0, y0)` using `fwd`, then return the distance
from the resulting point to `(xp, yp)` using `inv`. -/
def along_distance (fwd inv : ℝ → ℝ → ℝ → ℝ → ℝ × ℝ × ℝ)
    (x0 y0 xp yp az f : ℝ) : ℝ :=
  let trial := fwd x0 y0 az f
  (inv trial.1 trial.2.1 xp yp).2.2

/-- `_along_distance_gradient(fwd, inv, x0, y0, xp, yp, az, f, dx)`:
numerical gradient of `_along_distance` in terms of `f`. -/
def along_distance_gradient (fwd inv : ℝ → ℝ → ℝ → ℝ → ℝ × ℝ × ℝ)
    (x0 y0 xp yp az f dx : ℝ) : ℝ :=
  let d1 := along_distance fwd inv x0 y0 xp yp az f
  let d2 := along_distance fwd inv x0 y0 xp yp az (f + dx)
  (d2 - d1) / dx

/-- `class ConvergenceError(Exception)`: the only error kind raised by the
geodesic search. -/
inductive ConvergenceError where
  | mk : ConvergenceError

/-- One iteration of the bisection loop of `pt_nearest_proj` on the state
`(x0, x1, xm, dx)`: bisect at `xm = 0.5*(x0+x1)`, evaluate the gradient
`g` at `xm*L`; if it is positive set `dx = absd(x1-xm)*L` and `x1 = xm`,
else set `dx = absd(x0-xm)*L` and `x0 = xm`. -/
def bStep (g : ℝ → ℝ) (L : ℝ) (s : ℝ × ℝ × ℝ × ℝ) : ℝ × ℝ × ℝ × ℝ :=
  let xm : ℝ := 0.5 * (s.1 + s.2.1)
  if g (xm * L) > 0 then (s.1, xm, xm, absd (s.2.1 - xm) * L)
  else (xm, s.2.1, xm, absd (s.1 - xm) * L)

/-- The `while dx > tol` loop of `pt_nearest_proj`, with the remaining
iteration budget `maxiter - i` as fuel: exit normally with
`(x0, x1, xm)` when `dx ≤ tol`, raise `ConvergenceError` when the counter
reaches `maxiter`, and otherwise perform one `bStep` iteration. -/
def bisectAux (g : ℝ → ℝ) (L tol : ℝ) :
    ℕ → ℝ × ℝ × ℝ × ℝ → Except ConvergenceError (ℝ × ℝ × ℝ)
  | fuel, s =>
    if s.2.2.2 > tol then
      match fuel with
      | 0 => Except.error ConvergenceError.mk
      | f + 1 => bisectAux g L tol f (bStep g L s)
    else Except.ok (s.1, s.2.1, s.2.2.1)

/-- `pt_nearest_proj(fwd, inv, pt, endpt0, endpt1, tol, maxiter)`: the
point on the geodesic arc from `endpt0` to `endpt1` nearest `pt`, by
bisection on the sign of the numerical along-distance gradient.
`maxiter` is modelled as a natural number (the loop counter `i` starts at
0 and increases by 1, so only nonnegative `maxiter` values are ever
reached). -/
def pt_nearest_proj (fwd inv : ℝ → ℝ → ℝ → ℝ → ℝ × ℝ × ℝ)
    (pt endpt0 endpt1 : ℝ × ℝ) (tol : ℝ) (maxiter : ℕ) :
    Except ConvergenceError ((ℝ × ℝ) × ℝ) :=
  let r := inv endpt0.1 endpt0.2 endpt1.1 endpt1.2
  let az : ℝ := r.1
  let L : ℝ := r.2.2
  -- Detect whether the nearest point is at an endpoint
  let grad0 := along_distance_gradient fwd inv endpt0.1 endpt0.2 pt.1 pt.2 az 0 (1e-7 * L)
  let grad1 := along_distance_gradient fwd inv endpt0.1 endpt0.2 pt.1 pt.2 az L (1e-7 * L)
  if grad0 > 0 then
    Except.ok (endpt0, along_distance fwd inv endpt0.1 endpt0.2 pt.1 pt.2 az 0)
  else if grad1 < 0 then
    Except.ok (endpt1, along_distance fwd inv endpt0.1 endpt0.2 pt.1 pt.2 az L)
  else
    -- Bisection iteration
    match bisectAux
        (fun f => along_distance_gradient fwd inv endpt0.1 endpt0.2 pt.1 pt.2 az f (1e-7 * L))
        L tol maxiter (0, 1, 0, tol + 1) with
    | Except.error e => Except.error e
    | Except.ok s =>
      let xm := s.2.2
      let p := fwd endpt0.1 endpt0.2 az (xm * L)
      Except.ok ((p.1, p.2.1),
        along_distance fwd inv endpt0.1 endpt0.2 pt.1 pt.2 az (xm * L))

/-- `pt_nearest_proj` with the finite-difference scaling constant of the
gradient step (`1e-7` in the source) abstracted as a parameter `c`, so
that which step every gradient evaluation uses becomes a provable
statement rather than a reading of the source. -/
def pt_nearest_proj_genStep (c : ℝ) (fwd inv : ℝ → ℝ → ℝ → ℝ → ℝ × ℝ × ℝ)
    (pt endpt0 endpt1 : ℝ × ℝ) (tol : ℝ) (maxiter : ℕ) :
    Except ConvergenceError ((ℝ × ℝ) × ℝ) :=
  let r := inv endpt0.1 endpt0.2 endpt1.1 endpt1.2
  let az : ℝ := r.1
  let L : ℝ := r.2.2
  let grad0 := along_distance_gradient fwd inv endpt0.1 endpt0.2 pt.1 pt.2 az 0 (c * L)
  let grad1 := along_distance_gradient fwd inv endpt0.1 endpt0.2 pt.1 pt.2 az L (c * L)
  if grad0 > 0 then
    Except.ok (endpt0, along_distance fwd inv endpt0.1 endpt0.2 pt.1 pt.2 az 0)
  else if grad1 < 0 then
    Except.ok (endpt1, along_distance fwd inv endpt0.1 endpt0.2 pt.1 pt.2 az L)
  else
    match bisectAux
        (fun f => along_distance_gradient fwd inv endpt0.1 endpt0.2 pt.1 pt.2 az f (c * L))
        L tol maxiter (0, 1, 0, tol + 1) with
    | Except.error e => Except.error e
    | Except.ok s =>
      let xm := s.2.2
      let p := fwd endpt0.1 endpt0.2 az (xm * L)
      Except.ok ((p.1, p.2.1),
        along_distance fwd inv endpt0.1 endpt0.2 pt.1 pt.2 az (xm * L))

theorem absd_eq_abs (a : ℝ) : absd a = |a| := by
  unfold absd
  split_ifs with h
  · rw [abs_of_neg h]
  · rw [abs_of_nonneg (not_lt.mp h)]

theorem mind_eq_min (a b : ℝ) : mind a b = min a b := by
  unfold mind
  rw [min_def]

theorem maxd_eq_max (a b : ℝ) : maxd a b = max a b := by
  unfold maxd
  rw [max_def]
  split_ifs <;> first | rfl | linarith

theorem dist2_symm (p q : Vector2) : dist2 p q = dist2 q p := by
  unfold dist2
  congr 1
  ring

theorem convergenceError_eq_mk (e : ConvergenceError) : e = ConvergenceError.mk := by
  cases e
  rfl

theorem bisectAux_exit (g : ℝ → ℝ) (L tol : ℝ) (fuel : ℕ) (s : ℝ × ℝ × ℝ × ℝ)
    (h : ¬ s.2.2.2 > tol) :
    bisectAux g L tol fuel s = Except.ok (s.1, s.2.1, s.2.2.1) := by
  cases fuel <;> simp [bisectAux, h]

theorem bisectAux_zero (g : ℝ → ℝ) (L tol : ℝ) (s : ℝ × ℝ × ℝ × ℝ)
    (h : s.2.2.2 > tol) :
    bisectAux g L tol 0 s = Except.error ConvergenceError.mk := by
  simp [bisectAux, h]

theorem bisectAux_step (g : ℝ → ℝ) (L tol : ℝ) (f : ℕ) (s : ℝ × ℝ × ℝ × ℝ)
    (h : s.2.2.2 > tol) :
    bisectAux g L tol (f + 1) s = bisectAux g L tol f (bStep g L s) := by
  simp [bisectAux, h]

theorem bStep_dx_eq_width (g : ℝ → ℝ) (L : ℝ) (s : ℝ × ℝ × ℝ × ℝ) :
    (bStep g L s).2.2.2 = |(bStep g L s).2.1 - (bStep g L s).1| * L := by
  unfold bStep
  dsimp only
  split_ifs <;> simp only [absd_eq_abs]
  · rw [show s.2.1 - 0.5 * (s.1 + s.2.1) = 0.5 * (s.1 + s.2.1) - s.1 by ring]
  · rw [abs_sub_comm, show s.2.1 - 0.5 * (s.1 + s.2.1) = 0.5 * (s.1 + s.2.1) - s.1 by ring]

theorem bisectAux_err_iff (g : ℝ → ℝ) (L tol : ℝ) (fuel : ℕ) (s : ℝ × ℝ × ℝ × ℝ) :
    bisectAux g L tol fuel s = Except.error ConvergenceError.mk ↔
      ∀ k ≤ fuel, tol < ((bStep g L)^[k] s).2.2.2 := by
  induction fuel generalizing s with
  | zero =>
    by_cases h : s.2.2.2 > tol
    · rw [bisectAux_zero g L tol s h]
      constructor
      · intro _ k hk
        interval_cases k
        simpa using h
      · intro _
        rfl
    · rw [bisectAux_exit g L tol 0 s h]
      constructor
      · intro hc
        exact absurd hc (by simp)
      · intro hall
        exact absurd (hall 0 le_rfl) (by simpa using h)
  | succ f ih =>
    by_cases h : s.2.2.2 > tol
    · rw [bisectAux_step g L tol f s h, ih (bStep g L s)]
      constructor
      · intro hall k hk
        cases k with
        | zero => simpa using h
        | succ j =>
          rw [Function.iterate_succ_apply]
          exact hall j (Nat.succ_le_succ_iff.mp hk)
      · intro hall k hk
        have := hall (k + 1) (Nat.succ_le_succ hk)
        rwa [Function.iterate_succ_apply] at this
    · rw [bisectAux_exit g L tol (f + 1) s h]
      constructor
      · intro hc
        exact absurd hc (by simp)
      · intro hall
        exact absurd (hall 0 (Nat.zero_le _)) (by simpa using h)

theorem bisectAux_ok_at (g : ℝ → ℝ) (L tol : ℝ) (m : ℕ) :
    ∀ (fuel : ℕ) (s : ℝ × ℝ × ℝ × ℝ), m ≤ fuel →
    ((bStep g L)^[m] s).2.2.2 ≤ tol →
    (∀ k < m, tol < ((bStep g L)^[k] s).2.2.2) →
    bisectAux g L tol fuel s =
      Except.ok (((bStep g L)^[m] s).1, ((bStep g L)^[m] s).2.1,
        ((bStep g L)^[m] s).2.2.1) := by
  induction m with
  | zero =>
    intro fuel s _ hdx _
    simpa using bisectAux_exit g L tol fuel s (by simpa using not_lt.mpr hdx)
  | succ j ih =>
    intro fuel s hm hdx hprev
    have h0 : s.2.2.2 > tol := by simpa using hprev 0 (Nat.succ_pos j)
    obtain ⟨f, rfl⟩ : ∃ f, fuel = f + 1 := by
      cases fuel with
      | zero => exact absurd hm (by simp)
      | succ f => exact ⟨f, rfl⟩
    rw [bisectAux_step g L tol f s h0]
    have hiter : ∀ k, (bStep g L)^[k] (bStep g L s) = (bStep g L)^[k + 1] s := by
      intro k
      rw [Function.iterate_succ_apply]
    have := ih f (bStep g L s) (Nat.succ_le_succ_iff.mp hm)
      (by rw [hiter]; exact hdx)
      (by
        intro k hk
        rw [hiter]
        exact hprev (k + 1) (Nat.succ_lt_succ hk))
    rw [this, hiter]

theorem bisectAux_ok_width (g : ℝ → ℝ) (L tol : ℝ) :
    ∀ (fuel : ℕ) (s : ℝ × ℝ × ℝ × ℝ) (a b c : ℝ),
    (tol < s.2.2.2 ∨ s.2.2.2 = |s.2.1 - s.1| * L) →
    bisectAux g L tol fuel s = Except.ok (a, b, c) →
    |b - a| * L ≤ tol := by
  intro fuel
  induction fuel with
  | zero =>
    intro s a b c hinv hok
    by_cases h : s.2.2.2 > tol
    · rw [bisectAux_zero g L tol s h] at hok
      exact absurd hok (by simp)
    · rw [bisectAux_exit g L tol 0 s h] at hok
      have hdx : s.2.2.2 ≤ tol := not_lt.mp h
      rcases hinv with hlt | heq
      · exact absurd hlt (not_lt.mpr hdx)
      · obtain ⟨h1, h2, h3⟩ : s.1 = a ∧ s.2.1 = b ∧ s.2.2.1 = c := by
          simpa [Prod.ext_iff] using hok
        rw [← h1, ← h2, ← heq]
        exact hdx
  | succ f ih =>
    intro s a b c hinv hok
    by_cases h : s.2.2.2 > tol
    · rw [bisectAux_step g L tol f s h] at hok
      exact ih (bStep g L s) a b c (Or.inr (bStep_dx_eq_width g L s)) hok
    · rw [bisectAux_exit g L tol (f + 1) s h] at hok
      have hdx : s.2.2.2 ≤ tol := not_lt.mp h
      rcases hinv with hlt | heq
      · exact absurd hlt (not_lt.mpr hdx)
      · obtain ⟨h1, h2, h3⟩ : s.1 = a ∧ s.2.1 = b ∧ s.2.2.1 = c := by
          simpa [Prod.ext_iff] using hok
        rw [← h1, ← h2, ← heq]
        exact hdx

/-- C2: in the bisection loop of `pt_nearest_proj`, each iteration bisects
the bracket at the midpoint `xm = (x0+x1)/2`, evaluates the along-distance
gradient at `xm*L`, sets `x1 = xm` when that gradient is positive and
`x0 = xm` otherwise (recording the halved bracket width times `L` in
`dx`); the loop exits normally exactly when the tracked width `dx` is
`≤ tol`; and whenever the loop started from the initial bracket returns
normally, the final bracket satisfies `|x1 - x0| * L ≤ tol`. -/
theorem pt_nearest_proj_bisection_step_exit :
    ∀ (fwd inv : ℝ → ℝ → ℝ → ℝ → ℝ × ℝ × ℝ) (pt e0 e1 : ℝ × ℝ) (tol az L : ℝ)
      (g : ℝ → ℝ),
    az = (inv e0.1 e0.2 e1.1 e1.2).1 →
    L = (inv e0.1 e0.2 e1.1 e1.2).2.2 →
    g = (fun f => along_distance_gradient fwd inv e0.1 e0.2 pt.1 pt.2 az f (1e-7 * L)) →
    (∀ (f : ℕ) (x0 x1 xm dx : ℝ), dx > tol →
      bisectAux g L tol (f + 1) (x0, x1, xm, dx) =
        bisectAux g L tol f
          (if g ((x0 + x1) / 2 * L) > 0 then
            (x0, (x0 + x1) / 2, (x0 + x1) / 2, absd (x1 - (x0 + x1) / 2) * L)
          else
            ((x0 + x1) / 2, x1, (x0 + x1) / 2, absd (x0 - (x0 + x1) / 2) * L))) ∧
    (∀ (f : ℕ) (x0 x1 xm dx : ℝ), ¬ dx > tol →
      bisectAux g L tol f (x0, x1, xm, dx) = Except.ok (x0, x1, xm)) ∧
    (∀ (maxiter : ℕ) (a b c : ℝ),
      bisectAux g L tol maxiter (0, 1, 0, tol + 1) = Except.ok (a, b, c) →
      |b - a| * L ≤ tol) := by
  intro fwd inv pt e0 e1 tol az L g haz hL hg
  refine ⟨?_, ?_, ?_⟩
  · intro f x0 x1 xm dx h
    rw [bisectAux_step g L tol f _ h]
    congr 1
    unfold bStep
    dsimp only
    rw [show (0.5 : ℝ) * (x0 + x1) = (x0 + x1) / 2 by ring]
  · intro f x0 x1 xm dx h
    exact bisectAux_exit g L tol f _ h
  · intro maxiter a b c hok
    exact bisectAux_ok_width g L tol maxiter _ a b c
      (Or.inl (show tol < tol + 1 by linarith)) hok

/-- Witness for C2: with trivial geodetic functions, a bracket whose
tracked width is already at most the tolerance exits normally with that
bracket. -/
theorem pt_nearest_proj_bisection_step_exit_witness :
    ¬ ((0.05 : ℝ) > 0.1) ∧
      bisectAux
        (fun f => along_distance_gradient (fun _ _ _ _ => (0, 0, 0))
          (fun _ _ _ _ => (0, 0, 0)) 0 0 0 0 0 f (1e-7 * 0)) 0 0.1 5
        (0, 1, 0, 0.05) = Except.ok (0, 1, 0) :=
  ⟨by norm_num,
    (pt_nearest_proj_bisection_step_exit (fun _ _ _ _ => (0, 0, 0))
      (fun _ _ _ _ => (0, 0, 0)) (0, 0) (0, 0) (0, 0) 0.1 0 0
      (fun f => along_distance_gradient (fun _ _ _ _ => (0, 0, 0))
        (fun _ _ _ _ => (0, 0, 0)) 0 0 0 0 0 f (1e-7 * 0)) rfl rfl rfl).2.1
      5 0 1 0 0.05 (by norm_num)⟩

/-- C3: `pt_nearest_proj` raises `ConvergenceError` if and only if neither
endpoint short-circuit applies and the tracked width stays above `tol` for
every iteration count up to `maxiter`; with `maxiter = 0` and no endpoint
short-circuit it raises immediately; and no other error kind exists. -/
theorem pt_nearest_proj_convergence_error_iff :
    ∀ (fwd inv : ℝ → ℝ → ℝ → ℝ → ℝ × ℝ × ℝ) (pt e0 e1 : ℝ × ℝ) (tol az L : ℝ)
      (maxiter : ℕ) (g : ℝ → ℝ),
    az = (inv e0.1 e0.2 e1.1 e1.2).1 →
    L = (inv e0.1 e0.2 e1.1 e1.2).2.2 →
    g = (fun f => along_distance_gradient fwd inv e0.1 e0.2 pt.1 pt.2 az f (1e-7 * L)) →
    ((pt_nearest_proj fwd inv pt e0 e1 tol maxiter = Except.error ConvergenceError.mk) ↔
      (¬ g 0 > 0 ∧ ¬ g L < 0 ∧
        ∀ k ≤ maxiter, tol < ((bStep g L)^[k] (0, 1, 0, tol + 1)).2.2.2)) ∧
    (∀ e, pt_nearest_proj fwd inv pt e0 e1 tol maxiter = Except.error e →
      e = ConvergenceError.mk) ∧
    (¬ g 0 > 0 → ¬ g L < 0 →
      pt_nearest_proj fwd inv pt e0 e1 tol 0 = Except.error ConvergenceError.mk) := by
  intro fwd inv pt e0 e1 tol az L maxiter g haz hL hg
  have hbody : ∀ (mi : ℕ), pt_nearest_proj fwd inv pt e0 e1 tol mi =
      if g 0 > 0 then
        Except.ok (e0, along_distance fwd inv e0.1 e0.2 pt.1 pt.2 az 0)
      else if g L < 0 then
        Except.ok (e1, along_distance fwd inv e0.1 e0.2 pt.1 pt.2 az L)
      else
        match bisectAux g L tol mi (0, 1, 0, tol + 1) with
        | Except.error e => Except.error e
        | Except.ok s =>
          Except.ok (((fwd e0.1 e0.2 az (s.2.2 * L)).1, (fwd e0.1 e0.2 az (s.2.2 * L)).2.1),
            along_distance fwd inv e0.1 e0.2 pt.1 pt.2 az (s.2.2 * L)) := by
    subst haz
    subst hL
    subst hg
    intro mi
    rfl
  by_cases h0 : g 0 > 0
  · refine ⟨?_, ?_, ?_⟩
    · rw [hbody maxiter, if_pos h0]
      constructor
      · intro hc
        exact Except.noConfusion hc
      · intro ⟨hn, _, _⟩
        exact absurd h0 hn
    · intro e he
      rw [hbody maxiter, if_pos h0] at he
    · intro hn _
      exact absurd h0 hn
  · by_cases h1 : g L < 0
    · refine ⟨?_, ?_, ?_⟩
      · rw [hbody maxiter, if_neg h0, if_pos h1]
        constructor
        · intro hc
          exact Except.noConfusion hc
        · intro ⟨_, hn, _⟩
          exact absurd h1 hn
      · intro e he
        rw [hbody maxiter, if_neg h0, if_pos h1] at he
      · intro _ hn
        exact absurd h1 hn
    · have hstart : (tol : ℝ) < tol + 1 := by linarith
      refine ⟨?_, ?_, ?_⟩
      · rw [hbody maxiter, if_neg h0, if_neg h1]
        rcases hb : bisectAux g L tol maxiter (0, 1, 0, tol + 1) with e | s
        · have he : e = ConvergenceError.mk := convergenceError_eq_mk e
          subst he
          constructor
          · intro _
            exact ⟨h0, h1, (bisectAux_err_iff g L tol maxiter (0, 1, 0, tol + 1)).mp hb⟩
          · intro _
            simp [hb]
        · constructor
          · intro hc
            simp [hb] at hc
          · intro ⟨_, _, hall⟩
            have hE := (bisectAux_err_iff g L tol maxiter (0, 1, 0, tol + 1)).mpr hall
            rw [hb] at hE
            exact Except.noConfusion hE
      · intro e he
        exact convergenceError_eq_mk e
      · intro _ _
        rw [hbody 0, if_neg h0, if_neg h1]
        rw [bisectAux_zero g L tol _ hstart]

/-- Witness for C3: with a quadratic along-distance functional whose
minimum is interior (no endpoint short-circuit) and `maxiter = 0`, the
search raises `ConvergenceError` immediately. -/
theorem pt_nearest_proj_convergence_error_iff_witness :
    pt_nearest_proj (fun x y _ f => (x + f, y, 0))
      (fun a b c d => (0, 0, (c - a) ^ 2 + (d - b) ^ 2)) (1 / 2, 1) (0, 0) (1, 0)
      (1 / 10) 0 = Except.error ConvergenceError.mk := by
  refine (pt_nearest_proj_convergence_error_iff (fun x y _ f => (x + f, y, 0))
    (fun a b c d => (0, 0, (c - a) ^ 2 + (d - b) ^ 2)) (1 / 2, 1) (0, 0) (1, 0)
    (1 / 10)
    ((fun a b c d => ((0 : ℝ), (0 : ℝ), (c - a) ^ 2 + (d - b) ^ 2)) 0 0 1 0).1
    ((fun a b c d => ((0 : ℝ), (0 : ℝ), (c - a) ^ 2 + (d - b) ^ 2)) 0 0 1 0).2.2 0
    (fun f => along_distance_gradient (fun x y _ f => (x + f, y, 0))
      (fun a b c d => (0, 0, (c - a) ^ 2 + (d - b) ^ 2)) 0 0 (1 / 2) 1
      ((fun a b c d => ((0 : ℝ), (0 : ℝ), (c - a) ^ 2 + (d - b) ^ 2)) 0 0 1 0).1 f
      (1e-7 *
        ((fun a b c d => ((0 : ℝ), (0 : ℝ), (c - a) ^ 2 + (d - b) ^ 2)) 0 0 1 0).2.2))
    rfl rfl rfl).2.2 ?_ ?_
  · norm_num [along_distance_gradient, along_distance]
  · norm_num [along_distance_gradient, along_distance]

/-- C4: endpoint short-circuit of `pt_nearest_proj`: a positive gradient
at `f = 0` returns `(endpt0, along_distance at 0)` immediately; otherwise
a negative gradient at `f = L` returns `(endpt1, along_distance at L)`;
in both cases no `ConvergenceError` can be raised, whatever `maxiter`. -/
theorem pt_nearest_proj_endpoint_shortcircuit :
    ∀ (fwd inv : ℝ → ℝ → ℝ → ℝ → ℝ × ℝ × ℝ) (pt e0 e1 : ℝ × ℝ) (tol az L : ℝ)
      (maxiter : ℕ) (grad0 grad1 : ℝ),
    az = (inv e0.1 e0.2 e1.1 e1.2).1 →
    L = (inv e0.1 e0.2 e1.1 e1.2).2.2 →
    grad0 = along_distance_gradient fwd inv e0.1 e0.2 pt.1 pt.2 az 0 (1e-7 * L) →
    grad1 = along_distance_gradient fwd inv e0.1 e0.2 pt.1 pt.2 az L (1e-7 * L) →
    (grad0 > 0 → pt_nearest_proj fwd inv pt e0 e1 tol maxiter =
      Except.ok (e0, along_distance fwd inv e0.1 e0.2 pt.1 pt.2 az 0)) ∧
    (¬ grad0 > 0 → grad1 < 0 → pt_nearest_proj fwd inv pt e0 e1 tol maxiter =
      Except.ok (e1, along_distance fwd inv e0.1 e0.2 pt.1 pt.2 az L)) ∧
    ((grad0 > 0 ∨ grad1 < 0) →
      ∀ e, pt_nearest_proj fwd inv pt e0 e1 tol maxiter ≠ Except.error e) := by
  intro fwd inv pt e0 e1 tol az L maxiter grad0 grad1 haz hL hg0 hg1
  have hbody : pt_nearest_proj fwd inv pt e0 e1 tol maxiter =
      if grad0 > 0 then
        Except.ok (e0, along_distance fwd inv e0.1 e0.2 pt.1 pt.2 az 0)
      else if grad1 < 0 then
        Except.ok (e1, along_distance fwd inv e0.1 e0.2 pt.1 pt.2 az L)
      else
        match bisectAux
            (fun f => along_distance_gradient fwd inv e0.1 e0.2 pt.1 pt.2 az f (1e-7 * L))
            L tol maxiter (0, 1, 0, tol + 1) with
        | Except.error e => Except.error e
        | Except.ok s =>
          Except.ok (((fwd e0.1 e0.2 az (s.2.2 * L)).1, (fwd e0.1 e0.2 az (s.2.2 * L)).2.1),
            along_distance fwd inv e0.1 e0.2 pt.1 pt.2 az (s.2.2 * L)) := by
    subst haz
    subst hL
    subst hg0
    subst hg1
    rfl
  refine ⟨?_, ?_, ?_⟩
  · intro h0
    rw [hbody, if_pos h0]
  · intro h0 h1
    rw [hbody, if_neg h0, if_pos h1]
  · intro hsc e
    rcases hsc with h0 | h1
    · rw [hbody, if_pos h0]
      exact fun hc => Except.noConfusion hc
    · by_cases h0 : grad0 > 0
      · rw [hbody, if_pos h0]
        exact fun hc => Except.noConfusion hc
      · rw [hbody, if_neg h0, if_pos h1]
        exact fun hc => Except.noConfusion hc

/-- Witness for C4: a query point behind `endpt0` makes the gradient at
`f = 0` positive, and the search returns `endpt0` with its distance 1. -/
theorem pt_nearest_proj_endpoint_shortcircuit_witness :
    pt_nearest_proj (fun x y _ f => (x + f, y, 0))
      (fun a b c d => (0, 0, (c - a) ^ 2 + (d - b) ^ 2)) (-1, 0) (0, 0) (1, 0)
      (1 / 10) 3 = Except.ok ((0, 0), 1) := by
  have h := (pt_nearest_proj_endpoint_shortcircuit (fun x y _ f => (x + f, y, 0))
    (fun a b c d => (0, 0, (c - a) ^ 2 + (d - b) ^ 2)) (-1, 0) (0, 0) (1, 0)
    (1 / 10)
    ((fun a b c d => ((0 : ℝ), (0 : ℝ), (c - a) ^ 2 + (d - b) ^ 2)) 0 0 1 0).1
    ((fun a b c d => ((0 : ℝ), (0 : ℝ), (c - a) ^ 2 + (d - b) ^ 2)) 0 0 1 0).2.2 3
    (along_distance_gradient (fun x y _ f => (x + f, y, 0))
      (fun a b c d => (0, 0, (c - a) ^ 2 + (d - b) ^ 2)) 0 0 (-1) 0
      ((fun a b c d => ((0 : ℝ), (0 : ℝ), (c - a) ^ 2 + (d - b) ^ 2)) 0 0 1 0).1 0
      (1e-7 *
        ((fun a b c d => ((0 : ℝ), (0 : ℝ), (c - a) ^ 2 + (d - b) ^ 2)) 0 0 1 0).2.2))
    (along_distance_gradient (fun x y _ f => (x + f, y, 0))
      (fun a b c d => (0, 0, (c - a) ^ 2 + (d - b) ^ 2)) 0 0 (-1) 0
      ((fun a b c d => ((0 : ℝ), (0 : ℝ), (c - a) ^ 2 + (d - b) ^ 2)) 0 0 1 0).1
      ((fun a b c d => ((0 : ℝ), (0 : ℝ), (c - a) ^ 2 + (d - b) ^ 2)) 0 0 1 0).2.2
      (1e-7 *
        ((fun a b c d => ((0 : ℝ), (0 : ℝ), (c - a) ^ 2 + (d - b) ^ 2)) 0 0 1 0).2.2))
    rfl rfl rfl rfl).1 (by norm_num [along_distance_gradient, along_distance])
  rw [h]
  norm_num [along_distance]

/-- C8: `along_distance_gradient` is the forward-difference quotient of
`along_distance`, and every gradient evaluation inside `pt_nearest_proj`
(at `f = 0`, `f = L` and at every bisection midpoint) uses the step
`1e-7 * L`: the search coincides with its step-generic version
instantiated at the scaling constant `1e-7`. -/
theorem along_distance_gradient_forward_difference :
    (∀ (fwd inv : ℝ → ℝ → ℝ → ℝ → ℝ × ℝ × ℝ) (x0 y0 xp yp az f h : ℝ),
      0 < h →
      along_distance_gradient fwd inv x0 y0 xp yp az f h =
        (along_distance fwd inv x0 y0 xp yp az (f + h) -
          along_distance fwd inv x0 y0 xp yp az f) / h) ∧
    (∀ (fwd inv : ℝ → ℝ → ℝ → ℝ → ℝ × ℝ × ℝ) (pt e0 e1 : ℝ × ℝ) (tol : ℝ)
      (maxiter : ℕ),
      pt_nearest_proj fwd inv pt e0 e1 tol maxiter =
        pt_nearest_proj_genStep 1e-7 fwd inv pt e0 e1 tol maxiter) :=
  ⟨fun _ _ _ _ _ _ _ _ _ _ => rfl, fun _ _ _ _ _ _ _ => rfl⟩

/-- Witness for C8: the forward-difference identity at step 1. -/
theorem along_distance_gradient_forward_difference_witness :
    (0 : ℝ) < 1 ∧
      along_distance_gradient (fun _ _ _ _ => (0, 0, 0)) (fun _ _ _ _ => (0, 0, 0))
          0 0 0 0 0 0 1 =
        (along_distance (fun _ _ _ _ => (0, 0, 0)) (fun _ _ _ _ => (0, 0, 0))
            0 0 0 0 0 (0 + 1) -
          along_distance (fun _ _ _ _ => (0, 0, 0)) (fun _ _ _ _ => (0, 0, 0))
            0 0 0 0 0 0) / 1 :=
  ⟨by norm_num,
    along_distance_gradient_forward_difference.1 (fun _ _ _ _ => (0, 0, 0))
      (fun _ _ _ _ => (0, 0, 0)) 0 0 0 0 0 0 1 (by norm_num)⟩

theorem onSegment_left (p0 p1 : Vector2) : onSegment p0 p1 p0 :=
  ⟨0, le_rfl, zero_le_one, by ring, by ring⟩

theorem onSegment_right (p0 p1 : Vector2) : onSegment p0 p1 p1 :=
  ⟨1, zero_le_one, le_rfl, by ring, by ring⟩

theorem clamp_param (t c0 c1 : ℝ) (hne : c0 ≠ c1)
    (hmax : ¬ (t * (c1 - c0) + c0 > maxd c0 c1))
    (hmin : ¬ (t * (c1 - c0) + c0 < mind c0 c1)) : 0 ≤ t ∧ t ≤ 1 := by
  rw [maxd_eq_max] at hmax
  rw [mind_eq_min] at hmin
  push_neg at hmax hmin
  rcases lt_or_gt_of_ne hne with h | h
  · rw [max_eq_right h.le] at hmax
    rw [min_eq_left h.le] at hmin
    have hd : (0 : ℝ) < c1 - c0 := by linarith
    constructor
    · by_contra h'
      push_neg at h'
      have := mul_neg_of_neg_of_pos h' hd
      linarith
    · by_contra h'
      push_neg at h'
      have := (mul_lt_mul_right hd).mpr h'
      linarith
  · rw [max_eq_left h.le] at hmax
    rw [min_eq_right h.le] at hmin
    have hd : c1 - c0 < 0 := by linarith
    constructor
    · by_contra h'
      push_neg at h'
      have := mul_pos_of_neg_of_neg h' hd
      linarith
    · by_contra h'
      push_neg at h'
      have := (mul_lt_mul_right_of_neg hd).mpr h'
      linarith

/-- C1 (counterexample): for the query point `(1, 0)` and the degenerate
near-vertical-classified but horizontal segment from `(0, 0)` to
`(5e-5, 0)` (distinct endpoints), the returned point does not lie on the
closed segment. -/
theorem pt_nearest_planar_on_segment_counterexample :
    ((⟨0, 0⟩ : Vector2) ≠ ⟨5e-5, 0⟩) ∧
      ¬ onSegment ⟨0, 0⟩ ⟨5e-5, 0⟩ (pt_nearest_planar 1 0 0 0 5e-5 0).1 := by
  constructor
  · intro h
    have hx := congrArg Vector2.x h
    norm_num at hx
  · have hres : (pt_nearest_planar 1 0 0 0 5e-5 0).1 = ⟨1, 0⟩ := by
      norm_num [pt_nearest_planar, proj2, dot2, absd, maxd, mind]
    rw [hres]
    rintro ⟨t, ht0, ht1, hx, hy⟩
    dsimp only at hx
    nlinarith

/-- C1 (amended): the returned distance always equals the Euclidean
distance from the query point to the returned point; and provided the
clamping coordinate separates the endpoints (for a near-vertical-classified
segment, `e01 ≠ e11`; otherwise automatic), the returned point lies on the
closed segment. -/
theorem pt_nearest_planar_on_segment_amended :
    ∀ x y e00 e01 e10 e11 : ℝ,
    ((pt_nearest_planar x y e00 e01 e10 e11).2 =
      dist2 ⟨x, y⟩ (pt_nearest_planar x y e00 e01 e10 e11).1) ∧
    ((absd (e00 - e10) < 1e-4 → e01 ≠ e11) →
      onSegment ⟨e00, e01⟩ ⟨e10, e11⟩ (pt_nearest_planar x y e00 e01 e10 e11).1) := by
  intro x y e00 e01 e10 e11
  have hbody : ∀ t : ℝ,
      t = dot2 ⟨x - e00, y - e01⟩ ⟨e10 - e00, e11 - e01⟩ /
          dot2 ⟨e10 - e00, e11 - e01⟩ ⟨e10 - e00, e11 - e01⟩ →
      pt_nearest_planar x y e00 e01 e10 e11 =
      (if absd (e00 - e10) < 1e-4 then
        if t * (e11 - e01) + e01 > maxd e01 e11 then
          if e01 > e11 then (⟨e00, e01⟩, dist2 ⟨e00, e01⟩ ⟨x, y⟩)
          else (⟨e10, e11⟩, dist2 ⟨e10, e11⟩ ⟨x, y⟩)
        else if t * (e11 - e01) + e01 < mind e01 e11 then
          if e01 < e11 then (⟨e00, e01⟩, dist2 ⟨e00, e01⟩ ⟨x, y⟩)
          else (⟨e10, e11⟩, dist2 ⟨e10, e11⟩ ⟨x, y⟩)
        else
          (⟨t * (e10 - e00) + e00, t * (e11 - e01) + e01⟩,
            dist2 ⟨t * (e10 - e00) + e00, t * (e11 - e01) + e01⟩ ⟨x, y⟩)
      else
        if t * (e10 - e00) + e00 > maxd e00 e10 then
          if e00 > e10 then (⟨e00, e01⟩, dist2 ⟨e00, e01⟩ ⟨x, y⟩)
          else (⟨e10, e11⟩, dist2 ⟨e10, e11⟩ ⟨x, y⟩)
        else if t * (e10 - e00) + e00 < mind e00 e10 then
          if e00 < e10 then (⟨e00, e01⟩, dist2 ⟨e00, e01⟩ ⟨x, y⟩)
          else (⟨e10, e11⟩, dist2 ⟨e10, e11⟩ ⟨x, y⟩)
        else
          (⟨t * (e10 - e00) + e00, t * (e11 - e01) + e01⟩,
            dist2 ⟨t * (e10 - e00) + e00, t * (e11 - e01) + e01⟩ ⟨x, y⟩)) := by
    intro t ht
    subst ht
    rfl
  have hb := hbody _ rfl
  rw [hb]
  constructor
  · split_ifs <;> exact dist2_symm _ _
  · intro hsep
    by_cases hv : absd (e00 - e10) < 1e-4
    · rw [if_pos hv]
      by_cases hA : dot2 ⟨x - e00, y - e01⟩ ⟨e10 - e00, e11 - e01⟩ /
          dot2 ⟨e10 - e00, e11 - e01⟩ ⟨e10 - e00, e11 - e01⟩ * (e11 - e01) + e01 >
          maxd e01 e11
      · rw [if_pos hA]
        by_cases hA2 : e01 > e11
        · rw [if_pos hA2]
          exact onSegment_left _ _
        · rw [if_neg hA2]
          exact onSegment_right _ _
      · rw [if_neg hA]
        by_cases hB : dot2 ⟨x - e00, y - e01⟩ ⟨e10 - e00, e11 - e01⟩ /
            dot2 ⟨e10 - e00, e11 - e01⟩ ⟨e10 - e00, e11 - e01⟩ * (e11 - e01) + e01 <
            mind e01 e11
        · rw [if_pos hB]
          by_cases hB2 : e01 < e11
          · rw [if_pos hB2]
            exact onSegment_left _ _
          · rw [if_neg hB2]
            exact onSegment_right _ _
        · rw [if_neg hB]
          obtain ⟨ht0, ht1⟩ := clamp_param _ e01 e11 (hsep hv) hA hB
          exact ⟨_, ht0, ht1, by dsimp only; ring, by dsimp only; ring⟩
    · rw [if_neg hv]
      have hne : e00 ≠ e10 := by
        intro heq
        rw [absd_eq_abs, heq, sub_self, abs_zero] at hv
        exact hv (by norm_num)
      by_cases hA : dot2 ⟨x - e00, y - e01⟩ ⟨e10 - e00, e11 - e01⟩ /
          dot2 ⟨e10 - e00, e11 - e01⟩ ⟨e10 - e00, e11 - e01⟩ * (e10 - e00) + e00 >
          maxd e00 e10
      · rw [if_pos hA]
        by_cases hA2 : e00 > e10
        · rw [if_pos hA2]
          exact onSegment_left _ _
        · rw [if_neg hA2]
          exact onSegment_right _ _
      · rw [if_neg hA]
        by_cases hB : dot2 ⟨x - e00, y - e01⟩ ⟨e10 - e00, e11 - e01⟩ /
            dot2 ⟨e10 - e00, e11 - e01⟩ ⟨e10 - e00, e11 - e01⟩ * (e10 - e00) + e00 <
            mind e00 e10
        · rw [if_pos hB]
          by_cases hB2 : e00 < e10
          · rw [if_pos hB2]
            exact onSegment_left _ _
          · rw [if_neg hB2]
            exact onSegment_right _ _
        · rw [if_neg hB]
          obtain ⟨ht0, ht1⟩ := clamp_param _ e00 e10 hne hA hB
          exact ⟨_, ht0, ht1, by dsimp only; ring, by dsimp only; ring⟩

/-- Witness for C1 (amended): for the vertical-classified segment from
`(0, 0)` to `(0, 10)` and query point `(5, 20)`, the clamping coordinate
separates the endpoints and the returned point lies on the segment. -/
theorem pt_nearest_planar_on_segment_amended_witness :
    ((pt_nearest_planar 5 20 0 0 0 10).2 =
      dist2 ⟨5, 20⟩ (pt_nearest_planar 5 20 0 0 0 10).1) ∧
      onSegment ⟨0, 0⟩ ⟨0, 10⟩ (pt_nearest_planar 5 20 0 0 0 10).1 :=
  ⟨(pt_nearest_planar_on_segment_amended 5 20 0 0 0 10).1,
    (pt_nearest_planar_on_segment_amended 5 20 0 0 0 10).2
      (fun _ => by norm_num)⟩

/-- C6 (counterexample): the query point `(1e-4, 0)` lies beyond `E1`
along the extension of the segment from `(0, 0)` to `(5e-5, 0)` (with
`s = 1`), yet the returned point is `(1e-4, 0)`, not `E1`. -/
theorem pt_nearest_planar_beyond_counterexample :
    (1e-4 : ℝ) = 5e-5 + 1 * (5e-5 - 0) ∧ (0 : ℝ) = 0 + 1 * (0 - 0) ∧
      (0 : ℝ) < 1 ∧ (pt_nearest_planar 1e-4 0 0 0 5e-5 0).1 ≠ ⟨5e-5, 0⟩ := by
  refine ⟨by norm_num, by norm_num, by norm_num, ?_⟩
  have hres : (pt_nearest_planar 1e-4 0 0 0 5e-5 0).1 = ⟨1e-4, 0⟩ := by
    norm_num [pt_nearest_planar, proj2, dot2, absd, maxd, mind]
  rw [hres]
  intro h
  have hx := congrArg Vector2.x h
  norm_num at hx

/-- C6 (amended): `pt_nearest_planar` classifies the segment as
near-vertical exactly when `absd (e00 - e10) < 1e-4` and then clamps on
the y-coordinate instead of x; in both branches, when the projection foot
lies beyond the maximum clamping coordinate the endpoint with the larger
coordinate is returned, when beyond the minimum the endpoint with the
smaller coordinate, and otherwise the foot; and for a query point beyond
`E1` along the segment's extension the returned point equals `E1` exactly,
provided the clamping coordinate separates the endpoints (for a
near-vertical-classified segment, `e01 ≠ e11`). -/
theorem pt_nearest_planar_clamp_amended :
    ∀ x y e00 e01 e10 e11 t footx footy : ℝ,
    ∀ res : Vector2 × ℝ,
    res = pt_nearest_planar x y e00 e01 e10 e11 →
    t = dot2 ⟨x - e00, y - e01⟩ ⟨e10 - e00, e11 - e01⟩ /
        dot2 ⟨e10 - e00, e11 - e01⟩ ⟨e10 - e00, e11 - e01⟩ →
    footx = t * (e10 - e00) + e00 →
    footy = t * (e11 - e01) + e01 →
    (absd (e00 - e10) < 1e-4 →
      (footy > maxd e01 e11 →
        res.1.y = maxd e01 e11 ∧ (res.1 = ⟨e00, e01⟩ ∨ res.1 = ⟨e10, e11⟩)) ∧
      (¬ footy > maxd e01 e11 → footy < mind e01 e11 →
        res.1.y = mind e01 e11 ∧ (res.1 = ⟨e00, e01⟩ ∨ res.1 = ⟨e10, e11⟩)) ∧
      (¬ footy > maxd e01 e11 → ¬ footy < mind e01 e11 → res.1 = ⟨footx, footy⟩)) ∧
    (¬ absd (e00 - e10) < 1e-4 →
      (footx > maxd e00 e10 →
        res.1.x = maxd e00 e10 ∧ (res.1 = ⟨e00, e01⟩ ∨ res.1 = ⟨e10, e11⟩)) ∧
      (¬ footx > maxd e00 e10 → footx < mind e00 e10 →
        res.1.x = mind e00 e10 ∧ (res.1 = ⟨e00, e01⟩ ∨ res.1 = ⟨e10, e11⟩)) ∧
      (¬ footx > maxd e00 e10 → ¬ footx < mind e00 e10 → res.1 = ⟨footx, footy⟩)) ∧
    (∀ s : ℝ, 0 < s → x = e10 + s * (e10 - e00) → y = e11 + s * (e11 - e01) →
      (absd (e00 - e10) < 1e-4 → e01 ≠ e11) → res.1 = ⟨e10, e11⟩) := by
  intro x y e00 e01 e10 e11
  have hbody : ∀ t : ℝ,
      t = dot2 ⟨x - e00, y - e01⟩ ⟨e10 - e00, e11 - e01⟩ /
          dot2 ⟨e10 - e00, e11 - e01⟩ ⟨e10 - e00, e11 - e01⟩ →
      pt_nearest_planar x y e00 e01 e10 e11 =
      (if absd (e00 - e10) < 1e-4 then
        if t * (e11 - e01) + e01 > maxd e01 e11 then
          if e01 > e11 then (⟨e00, e01⟩, dist2 ⟨e00, e01⟩ ⟨x, y⟩)
          else (⟨e10, e11⟩, dist2 ⟨e10, e11⟩ ⟨x, y⟩)
        else if t * (e11 - e01) + e01 < mind e01 e11 then
          if e01 < e11 then (⟨e00, e01⟩, dist2 ⟨e00, e01⟩ ⟨x, y⟩)
          else (⟨e10, e11⟩, dist2 ⟨e10, e11⟩ ⟨x, y⟩)
        else
          (⟨t * (e10 - e00) + e00, t * (e11 - e01) + e01⟩,
            dist2 ⟨t * (e10 - e00) + e00, t * (e11 - e01) + e01⟩ ⟨x, y⟩)
      else
        if t * (e10 - e00) + e00 > maxd e00 e10 then
          if e00 > e10 then (⟨e00, e01⟩, dist2 ⟨e00, e01⟩ ⟨x, y⟩)
          else (⟨e10, e11⟩, dist2 ⟨e10, e11⟩ ⟨x, y⟩)
        else if t * (e10 - e00) + e00 < mind e00 e10 then
          if e00 < e10 then (⟨e00, e01⟩, dist2 ⟨e00, e01⟩ ⟨x, y⟩)
          else (⟨e10, e11⟩, dist2 ⟨e10, e11⟩ ⟨x, y⟩)
        else
          (⟨t * (e10 - e00) + e00, t * (e11 - e01) + e01⟩,
            dist2 ⟨t * (e10 - e00) + e00, t * (e11 - e01) + e01⟩ ⟨x, y⟩)) := by
    intro t ht
    subst ht
    rfl
  have hb := hbody _ rfl
  intro t footx footy res hres htv hfx hfy
  rw [hres, hfx, hfy, htv]
  refine ⟨?_, ?_, ?_⟩
  · intro hv
    refine ⟨?_, ?_, ?_⟩
    · intro hA
      rw [hb, if_pos hv, if_pos hA]
      by_cases h2 : e01 > e11
      · rw [if_pos h2, maxd_eq_max, max_eq_left h2.le]
        exact ⟨rfl, Or.inl rfl⟩
      · rw [if_neg h2, maxd_eq_max, max_eq_right (not_lt.mp h2)]
        exact ⟨rfl, Or.inr rfl⟩
    · intro hA hB
      rw [hb, if_pos hv, if_neg hA, if_pos hB]
      by_cases h2 : e01 < e11
      · rw [if_pos h2, mind_eq_min, min_eq_left h2.le]
        exact ⟨rfl, Or.inl rfl⟩
      · rw [if_neg h2, mind_eq_min, min_eq_right (not_lt.mp h2)]
        exact ⟨rfl, Or.inr rfl⟩
    · intro hA hB
      rw [hb, if_pos hv, if_neg hA, if_neg hB]
  · intro hv
    refine ⟨?_, ?_, ?_⟩
    · intro hA
      rw [hb, if_neg hv, if_pos hA]
      by_cases h2 : e00 > e10
      · rw [if_pos h2, maxd_eq_max, max_eq_left h2.le]
        exact ⟨rfl, Or.inl rfl⟩
      · rw [if_neg h2, maxd_eq_max, max_eq_right (not_lt.mp h2)]
        exact ⟨rfl, Or.inr rfl⟩
    · intro hA hB
      rw [hb, if_neg hv, if_neg hA, if_pos hB]
      by_cases h2 : e00 < e10
      · rw [if_pos h2, mind_eq_min, min_eq_left h2.le]
        exact ⟨rfl, Or.inl rfl⟩
      · rw [if_neg h2, mind_eq_min, min_eq_right (not_lt.mp h2)]
        exact ⟨rfl, Or.inr rfl⟩
    · intro hA hB
      rw [hb, if_neg hv, if_neg hA, if_neg hB]
  · intro s hs hx hy hsep
    subst hx
    subst hy
    rw [hb]
    by_cases hv : absd (e00 - e10) < 1e-4
    · have hvy : e11 - e01 ≠ 0 := sub_ne_zero_of_ne (Ne.symm (hsep hv))
      have hvv : (0 : ℝ) <
          dot2 ⟨e10 - e00, e11 - e01⟩ ⟨e10 - e00, e11 - e01⟩ := by
        dsimp [dot2]
        have h1 : 0 < (e11 - e01) * (e11 - e01) := mul_self_pos.mpr hvy
        nlinarith [mul_self_nonneg (e10 - e00)]
      have ht : dot2 ⟨e10 + s * (e10 - e00) - e00, e11 + s * (e11 - e01) - e01⟩
            ⟨e10 - e00, e11 - e01⟩ /
          dot2 ⟨e10 - e00, e11 - e01⟩ ⟨e10 - e00, e11 - e01⟩ = 1 + s := by
        dsimp only [dot2]
        rw [show (e10 + s * (e10 - e00) - e00) * (e10 - e00) +
            (e11 + s * (e11 - e01) - e01) * (e11 - e01) =
            (1 + s) * ((e10 - e00) * (e10 - e00) + (e11 - e01) * (e11 - e01)) by
          ring]
        exact mul_div_cancel_right₀ (1 + s) (by dsimp [dot2] at hvv; exact ne_of_gt hvv)
      rw [ht, if_pos hv]
      have hexp : (1 + s) * (e11 - e01) + e01 = e01 + (e11 - e01) + s * (e11 - e01) := by
        ring
      rcases lt_or_gt_of_ne hvy with hd | hd
      · have hsd : s * (e11 - e01) < 0 := mul_neg_of_pos_of_neg hs hd
        rw [if_neg (by
          rw [maxd_eq_max, max_eq_left (by linarith : e11 ≤ e01)]
          rw [hexp]
          exact not_lt.mpr (by linarith))]
        rw [if_pos (by
          rw [mind_eq_min, min_eq_right (by linarith : e11 ≤ e01)]
          rw [hexp]
          linarith)]
        rw [if_neg (by linarith : ¬ e01 < e11)]
      · have hsd : 0 < s * (e11 - e01) := mul_pos hs hd
        rw [if_pos (by
          rw [maxd_eq_max, max_eq_right (by linarith : e01 ≤ e11)]
          rw [hexp]
          linarith)]
        rw [if_neg (by linarith : ¬ e01 > e11)]
    · have hne : e00 ≠ e10 := by
        intro heq
        rw [absd_eq_abs, heq, sub_self, abs_zero] at hv
        exact hv (by norm_num)
      have hvx : e10 - e00 ≠ 0 := sub_ne_zero_of_ne (Ne.symm hne)
      have hvv : (0 : ℝ) <
          dot2 ⟨e10 - e00, e11 - e01⟩ ⟨e10 - e00, e11 - e01⟩ := by
        dsimp [dot2]
        have h1 : 0 < (e10 - e00) * (e10 - e00) := mul_self_pos.mpr hvx
        nlinarith [mul_self_nonneg (e11 - e01)]
      have ht : dot2 ⟨e10 + s * (e10 - e00) - e00, e11 + s * (e11 - e01) - e01⟩
            ⟨e10 - e00, e11 - e01⟩ /
          dot2 ⟨e10 - e00, e11 - e01⟩ ⟨e10 - e00, e11 - e01⟩ = 1 + s := by
        dsimp only [dot2]
        rw [show (e10 + s * (e10 - e00) - e00) * (e10 - e00) +
            (e11 + s * (e11 - e01) - e01) * (e11 - e01) =
            (1 + s) * ((e10 - e00) * (e10 - e00) + (e11 - e01) * (e11 - e01)) by
          ring]
        exact mul_div_cancel_right₀ (1 + s) (by dsimp [dot2] at hvv; exact ne_of_gt hvv)
      rw [ht, if_neg hv]
      have hexp : (1 + s) * (e10 - e00) + e00 = e00 + (e10 - e00) + s * (e10 - e00) := by
        ring
      rcases lt_or_gt_of_ne hvx with hd | hd
      · have hsd : s * (e10 - e00) < 0 := mul_neg_of_pos_of_neg hs hd
        rw [if_neg (by
          rw [maxd_eq_max, max_eq_left (by linarith : e10 ≤ e00)]
          rw [hexp]
          exact not_lt.mpr (by linarith))]
        rw [if_pos (by
          rw [mind_eq_min, min_eq_right (by linarith : e10 ≤ e00)]
          rw [hexp]
          linarith)]
        rw [if_neg (by linarith : ¬ e00 < e10)]
      · have hsd : 0 < s * (e10 - e00) := mul_pos hs hd
        rw [if_pos (by
          rw [maxd_eq_max, max_eq_right (by linarith : e00 ≤ e10)]
          rw [hexp]
          linarith)]
        rw [if_neg (by linarith : ¬ e00 > e10)]

/-- Witness for C6 (amended): the query point `(6, 8)` lies beyond
`E1 = (3, 4)` along the extension of the segment from `(0, 0)` to
`(3, 4)` (with `s = 1`) and the returned point is exactly `E1`. -/
theorem pt_nearest_planar_clamp_amended_witness :
    (pt_nearest_planar 6 8 0 0 3 4).1 = ⟨3, 4⟩ := by
  have h := (pt_nearest_planar_clamp_amended 6 8 0 0 3 4
    (dot2 ⟨6 - 0, 8 - 0⟩ ⟨3 - 0, 4 - 0⟩ / dot2 ⟨3 - 0, 4 - 0⟩ ⟨3 - 0, 4 - 0⟩)
    (dot2 ⟨6 - 0, 8 - 0⟩ ⟨3 - 0, 4 - 0⟩ / dot2 ⟨3 - 0, 4 - 0⟩ ⟨3 - 0, 4 - 0⟩ * (3 - 0) + 0)
    (dot2 ⟨6 - 0, 8 - 0⟩ ⟨3 - 0, 4 - 0⟩ / dot2 ⟨3 - 0, 4 - 0⟩ ⟨3 - 0, 4 - 0⟩ * (4 - 0) + 0)
    (pt_nearest_planar 6 8 0 0 3 4) rfl rfl rfl rfl).2.2 1 (by norm_num)
    (by norm_num) (by norm_num) (fun hcon => absurd hcon (by norm_num [absd]))
  rw [h]


theorem lengthGo_eq_sum (cs : CoordString) :
    ∀ (r i : ℕ), lengthGo cs i r = ∑ j ∈ Finset.range r,
      Real.sqrt ((cs.getX (i + j + 1) - cs.getX (i + j)) *
          (cs.getX (i + j + 1) - cs.getX (i + j)) +
        (cs.getY (i + j + 1) - cs.getY (i + j)) *
          (cs.getY (i + j + 1) - cs.getY (i + j))) := by
  intro r
  induction r with
  | zero =>
    intro i
    simp [lengthGo]
  | succ m ih =>
    intro i
    have hstep : lengthGo cs i (m + 1) =
        Real.sqrt ((cs.getX (i + 1) - cs.getX i) * (cs.getX (i + 1) - cs.getX i) +
          (cs.getY (i + 1) - cs.getY i) * (cs.getY (i + 1) - cs.getY i)) +
        lengthGo cs (i + 1) m := rfl
    rw [hstep, ih (i + 1), Finset.sum_range_succ', add_comm]
    congr 1
    apply Finset.sum_congr rfl
    intro j _
    rw [show i + 1 + j = i + (j + 1) by omega]

/-- C9: over a ring-flagged coordinate sequence of `n ≥ 1` points,
`length` returns the sum of the `n` consecutive segment lengths,
including the closing segment from the last point back to index 0. -/
theorem length_ring_closed_sum :
    ∀ cs : CoordString, cs.ring = true → 0 < cs.pts.length →
    length cs = (∑ i ∈ Finset.range (cs.pts.length - 1),
        segLen (cs.pts.getD i (0, 0)) (cs.pts.getD (i + 1) (0, 0))) +
      segLen (cs.pts.getD (cs.pts.length - 1) (0, 0)) (cs.pts.getD 0 (0, 0)) := by
  intro cs hring hn
  have hlen : length cs = lengthGo cs 0 cs.pts.length := by
    unfold length
    rw [hring]
    simp
  rw [hlen, lengthGo_eq_sum cs cs.pts.length 0]
  obtain ⟨m, hm⟩ : ∃ m, cs.pts.length = m + 1 := ⟨cs.pts.length - 1, by omega⟩
  rw [hm, Finset.sum_range_succ]
  congr 1
  · rw [show m + 1 - 1 = m by omega]
    apply Finset.sum_congr rfl
    intro j hj
    have hj' : j < m := Finset.mem_range.mp hj
    unfold CoordString.getX CoordString.getY segLen
    rw [hm]
    rw [Nat.mod_eq_of_lt (by omega : 0 + j < m + 1),
      Nat.mod_eq_of_lt (by omega : 0 + j + 1 < m + 1)]
    rw [show 0 + j = j by omega]
  · unfold CoordString.getX CoordString.getY segLen
    rw [hm]
    rw [show m + 1 - 1 = m by omega]
    rw [show 0 + m + 1 = m + 1 by omega, Nat.mod_self,
      Nat.mod_eq_of_lt (by omega : 0 + m < m + 1)]
    rw [show 0 + m = m by omega]

/-- Witness for C9: the length of a ring-flagged 3-4-5 rectangle with 4
points is the sum of its 4 segment lengths including the closing one. -/
theorem length_ring_closed_sum_witness :
    ({ pts := [((0 : ℝ), (0 : ℝ)), (3, 0), (3, 4), (0, 4)], ring := true } :
      CoordString).ring = true ∧
    length { pts := [((0 : ℝ), (0 : ℝ)), (3, 0), (3, 4), (0, 4)], ring := true } =
      (∑ i ∈ Finset.range
          (([((0 : ℝ), (0 : ℝ)), (3, 0), (3, 4), (0, 4)] : List (ℝ × ℝ)).length - 1),
        segLen (([((0 : ℝ), (0 : ℝ)), (3, 0), (3, 4), (0, 4)] : List (ℝ × ℝ)).getD i (0, 0))
          (([((0 : ℝ), (0 : ℝ)), (3, 0), (3, 4), (0, 4)] : List (ℝ × ℝ)).getD (i + 1) (0, 0))) +
      segLen (([((0 : ℝ), (0 : ℝ)), (3, 0), (3, 4), (0, 4)] : List (ℝ × ℝ)).getD
          (([((0 : ℝ), (0 : ℝ)), (3, 0), (3, 4), (0, 4)] : List (ℝ × ℝ)).length - 1) (0, 0))
        (([((0 : ℝ), (0 : ℝ)), (3, 0), (3, 4), (0, 4)] : List (ℝ × ℝ)).getD 0 (0, 0)) :=
  ⟨rfl, length_ring_closed_sum
    { pts := [((0 : ℝ), (0 : ℝ)), (3, 0), (3, 4), (0, 4)], ring := true } rfl
    (by simp)⟩

theorem bStep_iterate_invariant (g : ℝ → ℝ) (L tol : ℝ) :
    ∀ k : ℕ,
    0 ≤ ((bStep g L)^[k] (0, 1, 0, tol + 1)).1 ∧
    ((bStep g L)^[k] (0, 1, 0, tol + 1)).1 < ((bStep g L)^[k] (0, 1, 0, tol + 1)).2.1 ∧
    ((bStep g L)^[k] (0, 1, 0, tol + 1)).2.1 ≤ 1 ∧
    ((bStep g L)^[k] (0, 1, 0, tol + 1)).2.1 - ((bStep g L)^[k] (0, 1, 0, tol + 1)).1 =
      (1 / 2) ^ k ∧
    (1 ≤ k → ((bStep g L)^[k] (0, 1, 0, tol + 1)).2.2.2 =
      (((bStep g L)^[k] (0, 1, 0, tol + 1)).2.1 - ((bStep g L)^[k] (0, 1, 0, tol + 1)).1) * L) := by
  intro k
  induction k with
  | zero => norm_num
  | succ m ih =>
    obtain ⟨h0, h1, h2, h3, _⟩ := ih
    rw [Function.iterate_succ_apply']
    set s := (bStep g L)^[m] (0, 1, 0, tol + 1) with hs
    unfold bStep
    dsimp only
    split_ifs with hg
    · refine ⟨?_, ?_, ?_, ?_, ?_⟩ <;> dsimp only
      · exact h0
      · linarith
      · linarith
      · rw [pow_succ, ← h3]
        ring
      · intro _
        rw [absd_eq_abs, abs_of_pos (by linarith : (0 : ℝ) < s.2.1 - 0.5 * (s.1 + s.2.1))]
        ring
    · refine ⟨?_, ?_, ?_, ?_, ?_⟩ <;> dsimp only
      · linarith
      · linarith
      · exact h2
      · rw [pow_succ, ← h3]
        ring
      · intro _
        rw [absd_eq_abs, abs_of_neg (by linarith : s.1 - 0.5 * (s.1 + s.2.1) < 0)]
        ring

theorem bStep_iterate_dx (g : ℝ → ℝ) (L tol : ℝ) (k : ℕ) (hk : 1 ≤ k) :
    ((bStep g L)^[k] (0, 1, 0, tol + 1)).2.2.2 = (1 / 2) ^ k * L := by
  obtain ⟨_, _, _, h3, h4⟩ := bStep_iterate_invariant g L tol k
  rw [h4 hk, h3]

/-- C10 (counterexample): with `L = tol = 1`, the claimed iteration count
`⌈log2(L/tol)⌉` is 0, so convergence should occur with `maxiter = 0`; but
the loop always runs its first iteration, so the bisection raises
`ConvergenceError` instead. -/
theorem bisection_iteration_count_counterexample :
    ⌈Real.logb 2 ((1 : ℝ) / 1)⌉ = 0 ∧
      bisectAux (fun _ => 1) 1 1 0 (0, 1, 0, (1 : ℝ) + 1) =
        Except.error ConvergenceError.mk := by
  constructor
  · rw [show ((1 : ℝ) / 1) = 1 by norm_num, Real.logb_one]
    exact Int.ceil_zero
  · exact bisectAux_zero _ _ _ _ (by norm_num)

/-- C10 (amended): starting from the initial bracket, every iterate
satisfies `0 ≤ x0 < x1 ≤ 1`, the bracket width after `i` iterations is
exactly `2^(-i)`, and the tracked `dx` equals the post-update bracket
width times `L`; for `0 < L` and `0 < tol` the loop converges after
exactly `max 1 ⌈log2(L/tol)⌉` completed iterations (the first iteration
always runs): it returns the bracket of that iterate whenever `maxiter`
is at least that count and raises `ConvergenceError` whenever it is
smaller. -/
theorem bisection_iteration_count_amended :
    ∀ (g : ℝ → ℝ) (L tol : ℝ), 0 < L → 0 < tol →
    ∀ N : ℕ, N = max 1 (Int.toNat ⌈Real.logb 2 (L / tol)⌉) →
    (∀ k : ℕ,
      0 ≤ ((bStep g L)^[k] (0, 1, 0, tol + 1)).1 ∧
      ((bStep g L)^[k] (0, 1, 0, tol + 1)).1 < ((bStep g L)^[k] (0, 1, 0, tol + 1)).2.1 ∧
      ((bStep g L)^[k] (0, 1, 0, tol + 1)).2.1 ≤ 1 ∧
      ((bStep g L)^[k] (0, 1, 0, tol + 1)).2.1 - ((bStep g L)^[k] (0, 1, 0, tol + 1)).1 =
        (1 / 2) ^ k ∧
      (1 ≤ k → ((bStep g L)^[k] (0, 1, 0, tol + 1)).2.2.2 =
        (((bStep g L)^[k] (0, 1, 0, tol + 1)).2.1 -
          ((bStep g L)^[k] (0, 1, 0, tol + 1)).1) * L)) ∧
    (∀ fuel : ℕ, N ≤ fuel →
      bisectAux g L tol fuel (0, 1, 0, tol + 1) =
        Except.ok (((bStep g L)^[N] (0, 1, 0, tol + 1)).1,
          ((bStep g L)^[N] (0, 1, 0, tol + 1)).2.1,
          ((bStep g L)^[N] (0, 1, 0, tol + 1)).2.2.1)) ∧
    (∀ fuel : ℕ, fuel < N →
      bisectAux g L tol fuel (0, 1, 0, tol + 1) = Except.error ConvergenceError.mk) := by
  intro g L tol hL htol N hN
  have hLt : 0 < L / tol := div_pos hL htol
  have hcrit_le : ∀ k : ℕ, Real.logb 2 (L / tol) ≤ (k : ℝ) ↔ (1 / 2 : ℝ) ^ k * L ≤ tol := by
    intro k
    rw [Real.logb_le_iff_le_rpow (by norm_num : (1 : ℝ) < 2) hLt, Real.rpow_natCast]
    rw [div_le_iff₀ htol]
    rw [show (1 / 2 : ℝ) ^ k * L = L / 2 ^ k by rw [one_div, inv_pow]; ring]
    rw [div_le_iff₀ (by positivity : (0 : ℝ) < (2 : ℝ) ^ k)]
    rw [mul_comm ((2 : ℝ) ^ k) tol]
  have hgt : ∀ k : ℕ, k < N → tol < ((bStep g L)^[k] (0, 1, 0, tol + 1)).2.2.2 := by
    intro k hk
    rcases Nat.eq_zero_or_pos k with h0 | h1
    · subst h0
      have hz : ((bStep g L)^[0] (0, 1, 0, tol + 1)).2.2.2 = tol + 1 := rfl
      rw [hz]
      linarith
    · rw [bStep_iterate_dx g L tol k h1]
      by_contra hcon
      push_neg at hcon
      have hk2 : Real.logb 2 (L / tol) ≤ (k : ℝ) := (hcrit_le k).mpr hcon
      have hceil : ⌈Real.logb 2 (L / tol)⌉ ≤ (k : ℤ) := Int.ceil_le.mpr (by exact_mod_cast hk2)
      omega
  have hle : ((bStep g L)^[N] (0, 1, 0, tol + 1)).2.2.2 ≤ tol := by
    have hN1 : 1 ≤ N := by
      rw [hN]
      exact le_max_left _ _
    rw [bStep_iterate_dx g L tol N hN1]
    apply (hcrit_le N).mp
    have hself := Int.self_le_toNat ⌈Real.logb 2 (L / tol)⌉
    have hNZ : (⌈Real.logb 2 (L / tol)⌉ : ℤ) ≤ (N : ℤ) := by omega
    exact_mod_cast Int.ceil_le.mp hNZ
  refine ⟨bStep_iterate_invariant g L tol, ?_, ?_⟩
  · intro fuel hfuel
    exact bisectAux_ok_at g L tol N fuel _ hfuel hle hgt
  · intro fuel hfuel
    rw [bisectAux_err_iff]
    intro k hk
    exact hgt k (by omega)

/-- Witness for C10 (amended): with `L = 4`, `tol = 1` and `maxiter = 0`
(below the required iteration count), the bisection raises
`ConvergenceError`. -/
theorem bisection_iteration_count_amended_witness :
    (0 : ℝ) < 4 ∧ (0 : ℝ) < 1 ∧
      bisectAux (fun _ => (1 : ℝ)) 4 1 0 (0, 1, 0, (1 : ℝ) + 1) =
        Except.error ConvergenceError.mk :=
  ⟨by norm_num, by norm_num,
    ((bisection_iteration_count_amended (fun _ => 1) 4 1 (by norm_num) (by norm_num)
      (max 1 (Int.toNat ⌈Real.logb 2 ((4 : ℝ) / 1)⌉)) rfl).2.2 0
      (lt_of_lt_of_le Nat.zero_lt_one (le_max_left 1 _)))⟩

/-- C5 (code bug): the round trip `cart2sph (sph2cart p)` fails for the
southern-hemisphere point `p = (0, -45)` (longitude 0, latitude -45,
poles excluded): the code returns `(0, 135)`, a latitude off by 180°,
because the `atan`-based latitude branch does not correct for a negative
`z`. -/
theorem cart2sph_sph2cart_roundtrip_failure :
    cart2sph (sph2cart ⟨0, -45⟩) = ⟨0, 135⟩ ∧
      cart2sph (sph2cart ⟨0, -45⟩) ≠ ⟨0, -45⟩ := by
  have hxyz : sph2cart ⟨0, -45⟩ = ⟨Real.sqrt 2 / 2, 0, -(Real.sqrt 2 / 2)⟩ := by
    unfold sph2cart
    dsimp only
    rw [show π * (90.0 - (-45 : ℝ)) / 180.0 = π - π / 4 by ring]
    rw [show π * (0 : ℝ) / 180.0 = 0 by ring]
    rw [Real.sin_pi_sub, Real.sin_pi_div_four, Real.cos_pi_sub, Real.cos_pi_div_four,
      Real.cos_zero, Real.sin_zero]
    norm_num [Vector3.mk.injEq]
  have hmain : cart2sph ⟨Real.sqrt 2 / 2, 0, -(Real.sqrt 2 / 2)⟩ = ⟨0, 135⟩ := by
    unfold cart2sph
    dsimp only
    have h2 : Real.sqrt 2 * Real.sqrt 2 = 2 := Real.mul_self_sqrt (by norm_num)
    have hs2pos : (0 : ℝ) < Real.sqrt 2 := Real.sqrt_pos.mpr (by norm_num)
    have habs1 : absd (Real.sqrt 2 / 2) = Real.sqrt 2 / 2 := by
      rw [absd_eq_abs, abs_of_pos (by positivity)]
    have habs2 : absd (-(Real.sqrt 2 / 2)) = Real.sqrt 2 / 2 := by
      rw [absd_eq_abs, abs_neg, abs_of_pos (by positivity)]
    rw [habs1, habs2]
    have hgt : absd (Real.sqrt 2 / 2) > 1e-8 := by
      rw [habs1]
      nlinarith
    rw [habs1] at hgt
    rw [if_pos hgt, if_pos hgt]
    have hlon : atan2 0 (Real.sqrt 2 / 2) = 0 := by
      unfold atan2
      rw [if_pos (by positivity : (0 : ℝ) < Real.sqrt 2 / 2)]
      norm_num [Real.arctan_zero]
    have hsq : Real.sqrt (Real.sqrt 2 / 2 * (Real.sqrt 2 / 2) + 0 * 0) = Real.sqrt 2 / 2 := by
      rw [show Real.sqrt 2 / 2 * (Real.sqrt 2 / 2) + 0 * 0 =
        Real.sqrt 2 / 2 * (Real.sqrt 2 / 2) by ring]
      exact Real.sqrt_mul_self (by positivity)
    rw [hlon, hsq]
    have hdiv : Real.sqrt 2 / 2 / -(Real.sqrt 2 / 2) = -1 := by
      rw [div_neg, div_self (ne_of_gt (by positivity : (0 : ℝ) < Real.sqrt 2 / 2))]
    rw [hdiv, show (-1 : ℝ) = -(1) by norm_num, Real.arctan_neg, Real.arctan_one]
    rw [Vector2.mk.injEq]
    constructor
    · norm_num
    · field_simp
      ring
  constructor
  · rw [hxyz]
    exact hmain
  · rw [hxyz, hmain]
    intro h
    have hy := congrArg Vector2.y h
    norm_num at hy

/-- C7 (counterexample): at the boundary input `(-1e-8, 1, 1)` the claimed
branch selection (`asin` only when `|x|` is strictly below `1e-8`, `atan2`
otherwise) computes the longitude with `atan2` while the code uses the
`asin` formula (its test is `|x| > 1e-8`), and the two values differ. -/
theorem cart2sph_threshold_claim_counterexample :
    cart2sphClaim ⟨-1e-8, 1, 1⟩ ≠ cart2sph ⟨-1e-8, 1, 1⟩ := by
  intro h
  have hx := congrArg Vector2.x h
  have habs : absd (-1e-8 : ℝ) = 1e-8 := by
    rw [absd_eq_abs, abs_neg, abs_of_pos (by norm_num)]
  have hcl : (cart2sphClaim ⟨-1e-8, 1, 1⟩).x =
      (Real.arctan (1 / (-1e-8)) + π) * 180.0 / π := by
    unfold cart2sphClaim atan2
    dsimp only
    rw [habs]
    rw [if_neg (by norm_num : ¬ (1e-8 : ℝ) < 1e-8)]
    rw [if_neg (by norm_num : ¬ (0 : ℝ) < (-1e-8 : ℝ)),
      if_pos (by norm_num : (-1e-8 : ℝ) < 0), if_pos (by norm_num : (0 : ℝ) ≤ 1)]
  have hco : (cart2sph ⟨-1e-8, 1, 1⟩).x =
      Real.arcsin (1 / Real.sqrt ((-1e-8 : ℝ) * (-1e-8) + 1 * 1)) * 180.0 / π := by
    unfold cart2sph
    dsimp only
    rw [habs]
    rw [if_neg (by norm_num : ¬ (1e-8 : ℝ) > 1e-8)]
  rw [hcl, hco] at hx
  have hpi : (0 : ℝ) < π := Real.pi_pos
  have h1 : Real.arcsin (1 / Real.sqrt ((-1e-8 : ℝ) * (-1e-8) + 1 * 1)) ≤ π / 2 :=
    Real.arcsin_le_pi_div_two _
  have h2 : π / 2 < Real.arctan (1 / (-1e-8)) + π := by
    rw [show (1 : ℝ) / (-1e-8) = -(1e8) by norm_num, Real.arctan_neg]
    have hlt := Real.arctan_lt_pi_div_two (1e8 : ℝ)
    linarith
  have hmono : Real.arcsin (1 / Real.sqrt ((-1e-8 : ℝ) * (-1e-8) + 1 * 1)) * 180.0 / π <
      (Real.arctan (1 / (-1e-8)) + π) * 180.0 / π := by
    gcongr
    linarith
  linarith

/-- C7 (amended): `cart2sph` selects the `asin` longitude formula exactly
when `|x| ≤ 1e-8` (so `atan2` exactly when `|x| > 1e-8`) and the `acos`
latitude formula exactly when `|z| ≤ 1e-8` (so the `atan` formula exactly
when `|z| > 1e-8`): it coincides everywhere with the definition worded
that way. -/
theorem cart2sph_threshold_amended : ∀ a : Vector3, cart2sph a = cart2sphAmended a := by
  intro a
  unfold cart2sph cart2sphAmended
  dsimp only
  have hx : (if absd a.x > 1e-8 then atan2 a.y a.x
      else Real.arcsin (a.y / Real.sqrt (a.x * a.x + a.y * a.y))) =
      (if absd a.x ≤ 1e-8 then Real.arcsin (a.y / Real.sqrt (a.x * a.x + a.y * a.y))
      else atan2 a.y a.x) := by
    rcases le_or_lt (absd a.x) 1e-8 with h | h
    · rw [if_neg (not_lt.mpr h), if_pos h]
    · rw [if_pos h, if_neg (not_le.mpr h)]
  have hz : (if absd a.z > 1e-8 then
        0.5 * π - Real.arctan (Real.sqrt (a.x * a.x + a.y * a.y) / a.z)
      else 0.5 * π - Real.arccos (a.z / Real.sqrt (a.x * a.x + a.y * a.y + a.z * a.z))) =
      (if absd a.z ≤ 1e-8 then
        0.5 * π - Real.arccos (a.z / Real.sqrt (a.x * a.x + a.y * a.y + a.z * a.z))
      else 0.5 * π - Real.arctan (Real.sqrt (a.x * a.x + a.y * a.y) / a.z)) := by
    rcases le_or_lt (absd a.z) 1e-8 with h | h
    · rw [if_neg (not_lt.mpr h), if_pos h]
    · rw [if_pos h, if_neg (not_le.mpr h)]
  rw [hx, hz]

end Vectorgeo

end
